import Mathlib

/-!
# SmartExpenseTracker — verification of the aggregation and reconciliation core

A shallow embedding of the expense-tracker's aggregation engine
(`src/components/Dashboard.tsx`), budget merge and reconciliation layer
(`src/unnamed/part_001`, the `apiService`), settings handlers and CSV export
(`src/unnamed/part_000`, the `Settings` component), and the free-text expense
extractor wrapper (`src/unnamed/part_002`).

Currency values are embedded as exact rationals (the source uses JS numbers for
decimal currency amounts).  External collaborators — the Supabase record store,
the host's `Date` parser and locale formatter and the generative-model call —
are passed in as explicit oracle arguments, so every operation of the
reconciliation layer is a pure function of its inputs and the oracles'
answers.
-/

/-- An expense record as held by the application session (`types.ts` shape
used throughout `Dashboard.tsx` and the api service). -/
structure Expense where
  id : String
  amount : ℚ
  category : String
  description : String
  date : String
  deriving DecidableEq, Repr

/-- A per-category monthly budget cap (`types.ts` shape). -/
structure Budget where
  category : String
  limit : ℚ
  deriving DecidableEq, Repr

/-- The static category catalog with default limits, `DEFAULT_BUDGETS` of
`src/constants.ts`. -/
def DEFAULT_BUDGETS : List Budget :=
  [ { category := "Grocery", limit := 10000 },
    { category := "Household Help", limit := 5000 },
    { category := "Medical", limit := 2000 },
    { category := "Shopping", limit := 5000 },
    { category := "Transport", limit := 3000 },
    { category := "Education", limit := 5000 },
    { category := "Entertainment", limit := 3000 },
    { category := "Medical Insurance", limit := 2000 },
    { category := "Property Tax", limit := 1000 },
    { category := "Electricity", limit := 3000 },
    { category := "Mobile", limit := 1000 },
    { category := "Home Maintenance", limit := 2000 },
    { category := "Petrol", limit := 5000 },
    { category := "Food & Drinks", limit := 5000 } ]

/-- `totalSpent` of `Dashboard.tsx` (lines 46-48):
`filteredExpenses.reduce((sum, e) => sum + e.amount, 0)`. -/
def totalSpent (filteredExpenses : List Expense) : ℚ :=
  filteredExpenses.foldl (fun sum e => sum + e.amount) 0

/-- One element of `categoryBreakdown` (derived view model). -/
structure BreakdownEntry where
  category : String
  limit : ℚ
  spent : ℚ
  remaining : ℚ
  percentage : ℚ
  deriving DecidableEq, Repr

/-- The body of the `budgets.map` in `categoryBreakdown` (`Dashboard.tsx`
lines 59-72): spent is the sum of the filtered expenses whose category equals
the budget's category (exact, case-sensitive `===`), `remaining = limit -
spent`, `percentage = limit > 0 ? spent / limit * 100 : 0`. -/
def breakdownEntry (filteredExpenses : List Expense) (budget : Budget) :
    BreakdownEntry :=
  let spent :=
    totalSpent (filteredExpenses.filter (fun e => e.category == budget.category))
  { category := budget.category
    limit := budget.limit
    spent := spent
    remaining := budget.limit - spent
    percentage := if budget.limit > 0 then spent / budget.limit * 100 else 0 }

/-- One insertion step of a stable descending-by-`spent` sort: the new element
passes over exactly the elements with strictly larger `spent`. -/
def insertEntry (x : BreakdownEntry) : List BreakdownEntry → List BreakdownEntry
  | [] => [x]
  | y :: ys => if x.spent < y.spent then y :: insertEntry x ys else x :: y :: ys

/-- Stable insertion sort by `spent` descending.  This is the unique stable
order consistent with the comparator `(a, b) => b.spent - a.spent`, so it
embeds `Array.prototype.sort` (stable per ES2019) with that comparator as used
at `Dashboard.tsx` line 73. -/
def sortEntriesBySpentDesc : List BreakdownEntry → List BreakdownEntry
  | [] => []
  | x :: xs => insertEntry x (sortEntriesBySpentDesc xs)

/-- `categoryBreakdown` of `Dashboard.tsx` (lines 58-74). -/
def categoryBreakdown (budgets : List Budget) (filteredExpenses : List Expense) :
    List BreakdownEntry :=
  sortEntriesBySpentDesc (budgets.map (breakdownEntry filteredExpenses))

theorem insertEntry_perm (x : BreakdownEntry) (l : List BreakdownEntry) :
    (insertEntry x l).Perm (x :: l) := by
  induction l with
  | nil => simp [insertEntry]
  | cons y ys ih =>
    by_cases h : x.spent < y.spent
    · rw [insertEntry, if_pos h]
      exact (ih.cons y).trans (List.Perm.swap x y ys)
    · rw [insertEntry, if_neg h]

theorem sortEntriesBySpentDesc_perm (l : List BreakdownEntry) :
    (sortEntriesBySpentDesc l).Perm l := by
  induction l with
  | nil => simp [sortEntriesBySpentDesc]
  | cons x xs ih =>
    rw [sortEntriesBySpentDesc]
    exact (insertEntry_perm x (sortEntriesBySpentDesc xs)).trans (ih.cons x)

theorem insertEntry_pairwise (x : BreakdownEntry) (l : List BreakdownEntry)
    (h : l.Pairwise (fun a b => b.spent ≤ a.spent)) :
    (insertEntry x l).Pairwise (fun a b => b.spent ≤ a.spent) := by
  induction l with
  | nil => simp [insertEntry]
  | cons y ys ih =>
    rcases List.pairwise_cons.mp h with ⟨hy, hys⟩
    by_cases hc : x.spent < y.spent
    · rw [insertEntry, if_pos hc]
      refine List.pairwise_cons.mpr ⟨?_, ih hys⟩
      intro z hz
      rcases List.mem_cons.mp ((insertEntry_perm x ys).mem_iff.mp hz) with h1 | h2
      · subst h1; exact le_of_lt hc
      · exact hy z h2
    · rw [insertEntry, if_neg hc]
      refine List.pairwise_cons.mpr ⟨?_, h⟩
      intro z hz
      rcases List.mem_cons.mp hz with h1 | h2
      · subst h1; exact le_of_not_lt hc
      · exact le_trans (hy z h2) (le_of_not_lt hc)

theorem sortEntriesBySpentDesc_pairwise (l : List BreakdownEntry) :
    (sortEntriesBySpentDesc l).Pairwise (fun a b => b.spent ≤ a.spent) := by
  induction l with
  | nil => simp [sortEntriesBySpentDesc]
  | cons x xs ih =>
    rw [sortEntriesBySpentDesc]
    exact insertEntry_pairwise x _ ih

theorem insertEntry_filter_spent (x : BreakdownEntry) (l : List BreakdownEntry)
    (s : ℚ) :
    (insertEntry x l).filter (fun e => decide (e.spent = s))
      = if x.spent = s then x :: l.filter (fun e => decide (e.spent = s))
        else l.filter (fun e => decide (e.spent = s)) := by
  induction l with
  | nil =>
    by_cases h : x.spent = s <;> simp [insertEntry, h]
  | cons y ys ih =>
    by_cases hc : x.spent < y.spent
    · rw [insertEntry, if_pos hc]
      by_cases hx : x.spent = s
      · have hy : ¬ (y.spent = s) := by
          intro hy; rw [hx] at hc; rw [hy] at hc; exact lt_irrefl s hc
        simp [List.filter_cons, hx, hy, ih]
      · by_cases hy : y.spent = s <;> simp [List.filter_cons, hx, hy, ih]
    · rw [insertEntry, if_neg hc]
      by_cases hx : x.spent = s <;> simp [List.filter_cons, hx]

theorem sortEntriesBySpentDesc_filter_spent (l : List BreakdownEntry) (s : ℚ) :
    (sortEntriesBySpentDesc l).filter (fun e => decide (e.spent = s))
      = l.filter (fun e => decide (e.spent = s)) := by
  induction l with
  | nil => simp [sortEntriesBySpentDesc]
  | cons x xs ih =>
    rw [sortEntriesBySpentDesc, insertEntry_filter_spent]
    by_cases hx : x.spent = s <;> simp [List.filter_cons, hx, ih]

/-- **C1.** For every budget list `B` and month-filtered expense list `F`,
`categoryBreakdown` returns exactly one entry per element of `B` (it is a
permutation of the entry-wise map over `B`); each entry has `spent` equal to
the sum of amounts of expenses in `F` whose category equals that budget's
category exactly (case-sensitive), `remaining = limit - spent` and
`percentage = spent / limit * 100` when `limit > 0`, else `0`; the result is
sorted by `spent` descending; and entries with equal `spent` keep the relative
order their budgets had in `B` (stability: filtering the output at any fixed
`spent` value gives the same sequence as filtering the unsorted map). -/
theorem c1_categoryBreakdown_correct (B : List Budget) (F : List Expense) :
    (categoryBreakdown B F).Perm (B.map (breakdownEntry F))
    ∧ (∀ b : Budget,
        (breakdownEntry F b).category = b.category
        ∧ (breakdownEntry F b).limit = b.limit
        ∧ (breakdownEntry F b).spent
            = totalSpent (F.filter (fun e => e.category == b.category))
        ∧ (breakdownEntry F b).remaining = b.limit - (breakdownEntry F b).spent
        ∧ (breakdownEntry F b).percentage
            = (if b.limit > 0 then (breakdownEntry F b).spent / b.limit * 100
               else 0))
    ∧ (categoryBreakdown B F).Pairwise (fun a b => b.spent ≤ a.spent)
    ∧ (∀ s : ℚ,
        (categoryBreakdown B F).filter (fun e => decide (e.spent = s))
          = (B.map (breakdownEntry F)).filter (fun e => decide (e.spent = s))) := by
  refine ⟨sortEntriesBySpentDesc_perm _, ?_, sortEntriesBySpentDesc_pairwise _,
    fun s => sortEntriesBySpentDesc_filter_spent _ s⟩
  intro b
  refine ⟨rfl, rfl, rfl, rfl, rfl⟩

theorem totalSpent_eq_sum_map (l : List Expense) :
    totalSpent l = (l.map (fun e => e.amount)).sum := by
  have key : ∀ (l : List Expense) (a : ℚ),
      l.foldl (fun sum e => sum + e.amount) a
        = a + (l.map (fun e => e.amount)).sum := by
    intro l
    induction l with
    | nil => intro a; simp
    | cons e es ih => intro a; simp [List.foldl, ih, add_assoc]
  simpa using key l 0

theorem totalSpent_partition (p : Expense → Bool) (l : List Expense) :
    totalSpent l
      = totalSpent (l.filter (fun e => ! p e)) + totalSpent (l.filter p) := by
  simp only [totalSpent_eq_sum_map]
  induction l with
  | nil => simp
  | cons e es ih =>
    by_cases h : p e <;> simp [List.filter_cons, h, ih] <;> ring

theorem breakdownEntry_filter_out_other (F : List Expense) (c : String)
    (b : Budget) (hb : b.category ≠ c) :
    breakdownEntry (F.filter (fun e => ! (e.category == c))) b
      = breakdownEntry F b := by
  unfold breakdownEntry
  have hfilters :
      (F.filter (fun e => ! (e.category == c))).filter
          (fun e => e.category == b.category)
        = F.filter (fun e => e.category == b.category) := by
    rw [List.filter_filter]
    apply List.filter_congr
    intro e _
    by_cases h1 : e.category = b.category
    · simp [h1, hb]
    · simp [h1]
  rw [hfilters]

/-- **C7.** For every expense list and budget list: expenses whose category
appears in no budget entry are invisible to the per-category breakdown
(removing them leaves `categoryBreakdown` unchanged), yet their amounts still
contribute to `totalSpent` (which splits as the total over the other
categories plus the total over the orphan category); and conversely every
breakdown entry's `spent` sums only expenses of exactly its own category
(restated here from the entry construction). -/
theorem c7_orphan_category_asymmetry (B : List Budget) (F : List Expense)
    (c : String) (h : ∀ b ∈ B, b.category ≠ c) :
    categoryBreakdown B F
        = categoryBreakdown B (F.filter (fun e => ! (e.category == c)))
    ∧ totalSpent F
        = totalSpent (F.filter (fun e => ! (e.category == c)))
          + totalSpent (F.filter (fun e => e.category == c))
    ∧ (∀ b ∈ B, (breakdownEntry F b).spent
        = totalSpent (F.filter (fun e => e.category == b.category))) := by
  refine ⟨?_, totalSpent_partition _ F, fun b _ => rfl⟩
  unfold categoryBreakdown
  have hmap : B.map (breakdownEntry (F.filter (fun e => ! (e.category == c))))
      = B.map (breakdownEntry F) := by
    apply List.map_congr_left
    intro b hb
    exact breakdownEntry_filter_out_other F c b (h b hb)
  rw [hmap]

/-- Concrete data for the C7 witness: one catalog budget and one expense in a
category that is absent from the budget list. -/
def c7Budgets : List Budget := [{ category := "Grocery", limit := 10000 }]

def c7Expenses : List Expense :=
  [ { id := "1", amount := 500, category := "Snacks",
      description := "crisps", date := "2024-01-05" },
    { id := "2", amount := 700, category := "Grocery",
      description := "veg", date := "2024-01-06" } ]

theorem c7_witness :
    (∀ b ∈ c7Budgets, b.category ≠ "Snacks")
    ∧ (categoryBreakdown c7Budgets c7Expenses
          = categoryBreakdown c7Budgets
              (c7Expenses.filter (fun e => ! (e.category == "Snacks")))
        ∧ totalSpent c7Expenses
            = totalSpent (c7Expenses.filter (fun e => ! (e.category == "Snacks")))
              + totalSpent (c7Expenses.filter (fun e => e.category == "Snacks"))
        ∧ (∀ b ∈ c7Budgets, (breakdownEntry c7Expenses b).spent
            = totalSpent (c7Expenses.filter
                (fun e => e.category == b.category)))) :=
  ⟨by decide, c7_orphan_category_asymmetry c7Budgets c7Expenses "Snacks" (by decide)⟩

/-- Result of one Supabase call: the `{ data, error }` pair the client
returns (it reports failures as a value, it does not throw). -/
inductive QueryResult (α : Type) where
  | ok (data : α)
  | err (msg : String)
  deriving DecidableEq, Repr

/-- A stored expense-row key.  The identifier may be backed by a numeric or a
string key; the api service's retry logic exists precisely because of this. -/
inductive DbId where
  | num (n : Int)
  | str (s : String)
  deriving DecidableEq, Repr

/-- A row of the remote `expenses` table as selected by the api service
(`id, amount, category, description, created_at`). -/
structure DbExpenseRow where
  id : DbId
  amount : ℚ
  category : String
  description : String
  created_at : String
  deriving DecidableEq, Repr

/-- A row of the remote `expense_budgets` table as selected by `fetchState`
(`category, budget_amount`). -/
structure DbBudgetRow where
  category : String
  budget_amount : ℚ
  deriving DecidableEq, Repr

/-- `id.toString()` on a stored key. -/
def dbIdToString : DbId → String
  | .num n => toString n
  | .str s => s

/-- The row-to-record normalization used by `fetchState`, `saveExpense` and
`updateExpense`: `id.toString()`, `parseFloat` on the numeric amount (the
identity in this exact-rational model), `created_at` becomes `date`. -/
def normalizeRow (row : DbExpenseRow) : Expense :=
  { id := dbIdToString row.id
    amount := row.amount
    category := row.category
    description := row.description
    date := row.created_at }

/-- The budget-merge step of `fetchState` (`src/unnamed/part_001` lines
33-40): start from `DEFAULT_BUDGETS`; when the stored override list is
non-empty, map every catalog default to the first stored row with exactly its
category when one exists (`find`), else keep the default. -/
def mergeBudgets (dbBudgets : List DbBudgetRow) : List Budget :=
  if dbBudgets.length > 0 then
    DEFAULT_BUDGETS.map (fun dflt =>
      match dbBudgets.find? (fun b => b.category == dflt.category) with
      | some found => { category := found.category, limit := found.budget_amount }
      | none => dflt)
  else DEFAULT_BUDGETS

/-- The `{expenses, budgets}` pair owned by the application session. -/
structure AppState where
  expenses : List Expense
  budgets : List Budget
  deriving DecidableEq, Repr

/-- The empty/default state `fetchState` falls back to. -/
def defaultState : AppState := { expenses := [], budgets := DEFAULT_BUDGETS }

/-- `apiService.fetchState` (`src/unnamed/part_001` lines 9-56).  The auth
check and the two store queries are supplied as inputs: `none` for no active
session; `expQ`/`budQ` are the store's answers for the expense and budget
queries.  An expense-query error is thrown and caught inside the function
(fail-soft default state); a budget-query error is ignored, leaving the
overrides empty. -/
def fetchState (user : Option String)
    (expQ : QueryResult (List DbExpenseRow))
    (budQ : QueryResult (List DbBudgetRow)) : AppState :=
  match user with
  | none => defaultState
  | some _ =>
    match expQ with
    | .err _ => defaultState
    | .ok dbExpenses =>
      let dbBudgets := match budQ with | .ok rows => rows | .err _ => []
      { expenses := dbExpenses.map normalizeRow
        budgets := mergeBudgets dbBudgets }


theorem find?_eq_of_mem_of_distinct {rows : List DbBudgetRow}
    (hnd : rows.Pairwise (fun a b => a.category ≠ b.category))
    {r : DbBudgetRow} (hr : r ∈ rows) :
    rows.find? (fun b => b.category == r.category) = some r := by
  induction rows with
  | nil => cases hr
  | cons a as ih =>
    rcases List.pairwise_cons.mp hnd with ⟨ha, has⟩
    rcases List.mem_cons.mp hr with h1 | h2
    · subst h1
      simp [List.find?]
    · have hne : (a.category == r.category) = false := by
        simpa using ha r h2
      simp only [List.find?, hne]
      exact ih has h2

theorem mergeBudgets_getElem_override (rows : List DbBudgetRow)
    (hnd : rows.Pairwise (fun a b => a.category ≠ b.category))
    (r : DbBudgetRow) (hr : r ∈ rows) (i : ℕ) (dflt : Budget)
    (hget : DEFAULT_BUDGETS[i]? = some dflt)
    (hcat : r.category = dflt.category) :
    (mergeBudgets rows)[i]? = some { category := r.category,
                                     limit := r.budget_amount } := by
  have hlen : rows.length > 0 := by
    cases rows with
    | nil => cases hr
    | cons a as => simp
  unfold mergeBudgets
  rw [if_pos hlen, List.getElem?_map, hget]
  have hfind : rows.find? (fun b => b.category == dflt.category) = some r := by
    rw [← hcat]
    exact find?_eq_of_mem_of_distinct hnd hr
  simp [hfind]

theorem mergeBudgets_getElem_no_override (rows : List DbBudgetRow)
    (i : ℕ) (dflt : Budget)
    (hget : DEFAULT_BUDGETS[i]? = some dflt)
    (hnone : ∀ r ∈ rows, r.category ≠ dflt.category) :
    (mergeBudgets rows)[i]? = some dflt := by
  by_cases hlen : rows.length > 0
  · unfold mergeBudgets
    rw [if_pos hlen, List.getElem?_map, hget]
    have hfind : rows.find? (fun b => b.category == dflt.category) = none := by
      rw [List.find?_eq_none]
      intro r hr
      simpa using hnone r hr
    simp [hfind]
  · unfold mergeBudgets
    rw [if_neg hlen]
    exact hget

theorem mergeBudgets_categories (rows : List DbBudgetRow) :
    (mergeBudgets rows).map (fun b => b.category)
      = DEFAULT_BUDGETS.map (fun b => b.category) := by
  unfold mergeBudgets
  by_cases hlen : rows.length > 0
  · rw [if_pos hlen, List.map_map]
    apply List.map_congr_left
    intro dflt _
    simp only [Function.comp]
    cases hfind : rows.find? (fun b => b.category == dflt.category) with
    | none => rfl
    | some found =>
      have := List.find?_some hfind
      simpa using this
  · rw [if_neg hlen]

/-- **C2.** For every set of stored per-user budget override rows (a set:
categories are pairwise distinct, as enforced by the store's
`(user, category)` upsert key), the budget list produced by
`fetchState`/`mergeBudgets` has exactly one entry per catalog category in
catalog order (its category sequence equals the catalog's, whose categories
are distinct), and at every index the entry's limit is the stored override's
amount when an override row for that category exists and the catalog default
limit otherwise.  `fetchState` returns exactly this merged list on a
successful authenticated fetch. -/
theorem c2_fetchState_budget_merge (rows : List DbBudgetRow)
    (hnd : rows.Pairwise (fun a b => a.category ≠ b.category)) :
    ((mergeBudgets rows).map (fun b => b.category)
        = DEFAULT_BUDGETS.map (fun b => b.category))
    ∧ (DEFAULT_BUDGETS.map (fun b => b.category)).Nodup
    ∧ (∀ (i : ℕ) (dflt : Budget), DEFAULT_BUDGETS[i]? = some dflt →
        (∀ r ∈ rows, r.category = dflt.category →
          (mergeBudgets rows)[i]?
            = some { category := r.category, limit := r.budget_amount })
        ∧ ((∀ r ∈ rows, r.category ≠ dflt.category) →
          (mergeBudgets rows)[i]? = some dflt))
    ∧ (∀ (user : String) (dbExpenses : List DbExpenseRow),
        (fetchState (some user) (QueryResult.ok dbExpenses)
            (QueryResult.ok rows)).budgets = mergeBudgets rows) := by
  refine ⟨mergeBudgets_categories rows, by decide, ?_, fun user dbExpenses => rfl⟩
  intro i dflt hget
  exact ⟨fun r hr hcat =>
      mergeBudgets_getElem_override rows hnd r hr i dflt hget hcat,
    fun hnone => mergeBudgets_getElem_no_override rows i dflt hget hnone⟩

/-- Concrete override rows for the C2 witness. -/
def c2Rows : List DbBudgetRow :=
  [ { category := "Transport", budget_amount := 7777 },
    { category := "Mobile", budget_amount := 42 } ]

theorem c2_witness :
    c2Rows.Pairwise (fun a b => a.category ≠ b.category)
    ∧ ((mergeBudgets c2Rows).map (fun b => b.category)
        = DEFAULT_BUDGETS.map (fun b => b.category)) := by
  have hnd : c2Rows.Pairwise (fun a b => a.category ≠ b.category) := by
    decide
  exact ⟨hnd, (c2_fetchState_budget_merge c2Rows hnd).1⟩

/-- Decimal digits to a natural number (most significant first). -/
def digitsToNat (ds : List Char) : ℕ :=
  ds.foldl (fun a c => a * 10 + (c.toNat - Char.toNat '0')) 0

/-- Models the host's `parseInt(s, 10)`: skip leading whitespace, an optional
sign, then the longest prefix of decimal digits; `none` stands for `NaN`
(no digits). -/
def parseIntJS (s : String) : Option Int :=
  let cs := s.data.dropWhile (fun c => c.isWhitespace)
  let signRest : Int × List Char :=
    match cs with
    | '-' :: rest => (-1, rest)
    | '+' :: rest => (1, rest)
    | rest => (1, rest)
  let ds := signRest.2.takeWhile (fun c => c.isDigit)
  if ds.isEmpty then none
  else some (signRest.1 * (digitsToNat ds : Int))

/-- The identifier-representation choice of `apiService.updateExpense`
(`src/unnamed/part_001` lines 113-114):
`const numericId = parseInt(id, 10)`;
`filterId = (isNaN(numericId) || id !== numericId.toString()) ? id : numericId`.
The numeric key is used exactly when `id` is the canonical decimal string of
its parsed value. -/
def filterIdOf (id : String) : DbId :=
  match parseIntJS id with
  | none => DbId.str id
  | some n => if id == toString n then DbId.num n else DbId.str id

/-- A partial-field expense update as passed from the UI
(`Partial<Expense>`; the `id` travels separately). -/
structure ExpenseUpdates where
  amount : Option ℚ
  category : Option String
  description : Option String
  date : Option String
  deriving DecidableEq, Repr

/-- The update payload actually sent to the store (`dbUpdates`); absent
fields are not sent. -/
structure DbUpdatePayload where
  amount : Option ℚ
  category : Option String
  description : Option String
  created_at : Option String
  deriving DecidableEq, Repr

/-- Payload construction of `apiService.updateExpense` (`src/unnamed/part_001`
lines 101-111): each field is copied only when present; the date is included
only when it is a non-empty string (JS truthiness) that the host date parser
accepts, in which case its ISO rendering is sent as `created_at`; an
unparseable date is silently dropped.  `jsDateToISO` is the host's
`new Date(s).toISOString()` composite: `none` models an invalid date. -/
def buildDbUpdates (jsDateToISO : String → Option String)
    (updates : ExpenseUpdates) : DbUpdatePayload :=
  { amount := updates.amount
    category := updates.category
    description := updates.description
    created_at :=
      match updates.date with
      | none => none
      | some d => if d == "" then none else jsDateToISO d }

/-- `apiService.updateExpense` (`src/unnamed/part_001` lines 97-159).
`runUpdate payload fid` is the store's `{data, error}` answer to
`update(payload).eq('id', fid).eq('user_id', user.id).select(...)`.  The
result carries the returned record (or `null`) together with the trace of
identifier representations attempted, in order. -/
def updateExpense (jsDateToISO : String → Option String) (user : Option String)
    (id : String) (updates : ExpenseUpdates)
    (runUpdate : DbUpdatePayload → DbId → QueryResult (List DbExpenseRow)) :
    Option Expense × List DbId :=
  match user with
  | none => (none, [])
  | some _ =>
    let dbUpdates := buildDbUpdates jsDateToISO updates
    let fid := filterIdOf id
    match runUpdate dbUpdates fid with
    | .err _ => (none, [fid])
    | .ok (row :: _) => (some (normalizeRow row), [fid])
    | .ok [] =>
      match fid with
      | .num _ =>
        match runUpdate dbUpdates (DbId.str id) with
        | .ok (row :: _) => (some (normalizeRow row), [fid, DbId.str id])
        | .ok [] => (none, [fid, DbId.str id])
        | .err _ => (none, [fid, DbId.str id])
      | .str _ => (none, [fid])

/-- The row sent by `saveExpense`'s insert. -/
structure InsertPayload where
  amount : ℚ
  category : String
  description : String
  created_at : Option String
  deriving DecidableEq, Repr

/-- `apiService.saveExpense` (`src/unnamed/part_001` lines 61-92).  When a
non-empty explicit date is supplied, the source runs
`new Date(specificDate).toISOString()` with no validity check; on an invalid
date `toISOString` throws a `RangeError`, modelled as the `Except.error`
outcome.  All other paths return `Except.ok` with the saved record or `none`
as the failure signal. -/
def saveExpense (jsDateToISO : String → Option String) (user : Option String)
    (amount : ℚ) (category description : String) (specificDate : Option String)
    (runInsert : InsertPayload → QueryResult (List DbExpenseRow)) :
    Except String (Option Expense) :=
  match user with
  | none => Except.ok none
  | some _ =>
    let createdAt : Except String (Option String) :=
      match specificDate with
      | none => Except.ok none
      | some d =>
        if d == "" then Except.ok none
        else
          match jsDateToISO d with
          | some iso => Except.ok (some iso)
          | none => Except.error "RangeError: Invalid time value"
    match createdAt with
    | Except.error e => Except.error e
    | Except.ok c =>
      match runInsert { amount := amount, category := category,
                        description := description, created_at := c } with
      | .err _ => Except.ok none
      | .ok [] => Except.ok none
      | .ok (row :: _) => Except.ok (some (normalizeRow row))

/-- A row of the `expense_budgets` upsert payload. -/
structure BudgetUpsertRow where
  user_id : String
  category : String
  budget_amount : ℚ
  deriving DecidableEq, Repr

/-- `apiService.saveBudgets` (`src/unnamed/part_001` lines 164-179).  With no
session it returns void at once — sending nothing and signalling nothing.
With a session it upserts all rows and throws the store error
(`if (error) throw error`), modelled as `Except.error`.  The second component
is the upsert payload actually sent (`[]` when nothing was sent). -/
def saveBudgets (user : Option String) (budgets : List Budget)
    (runUpsert : List BudgetUpsertRow → QueryResult Unit) :
    Except String Unit × List BudgetUpsertRow :=
  match user with
  | none => (Except.ok (), [])
  | some uid =>
    let budgetData := budgets.map (fun b =>
      { user_id := uid, category := b.category, budget_amount := b.limit })
    match runUpsert budgetData with
    | .err e => (Except.error e, budgetData)
    | .ok _ => (Except.ok (), budgetData)

/-- Split a character list at every occurrence of `sep` (used to model the
host's ISO calendar-date parsing on `"YYYY-MM-DD"` inputs). -/
def splitOnChar (sep : Char) : List Char → List (List Char)
  | [] => [[]]
  | x :: xs =>
    let r := splitOnChar sep xs
    if x = sep then [] :: r
    else
      match r with
      | [] => [[x]]
      | g :: gs => (x :: g) :: gs

/-- Models the host's `new Date(s).toISOString()` on ISO calendar-date
strings: a `"YYYY-MM-DD"` string with in-range month and day parses to UTC
midnight and renders as `s ++ "T00:00:00.000Z"`; every other input in this
model is an invalid date (`none`), as the host treats strings such as
`"not-a-date"`. -/
def jsDateToISOdefault (s : String) : Option String :=
  match splitOnChar '-' s.data with
  | [y, m, d] =>
    if (y.length == 4 && m.length == 2 && d.length == 2
        && y.all (fun c => c.isDigit) && m.all (fun c => c.isDigit)
        && d.all (fun c => c.isDigit)
        && decide (1 ≤ digitsToNat m) && decide (digitsToNat m ≤ 12)
        && decide (1 ≤ digitsToNat d) && decide (digitsToNat d ≤ 31)) then
      some (s ++ "T00:00:00.000Z")
    else none
  | _ => none

/-- **C3 (amended).** Without an active session: the read (`fetchState`)
returns the empty/default state; `saveExpense` and `updateExpense` return the
`null` failure signal without contacting the store; but `saveBudgets` returns
void successfully without attempting any write — a silent no-op
indistinguishable from success, not a failure signal.  No unauthenticated
call throws (no `Except.error` outcome). -/
theorem c3_unauthenticated_behaviour (jsDateToISO : String → Option String)
    (expQ : QueryResult (List DbExpenseRow))
    (budQ : QueryResult (List DbBudgetRow))
    (amount : ℚ) (category description : String) (specificDate : Option String)
    (runInsert : InsertPayload → QueryResult (List DbExpenseRow))
    (id : String) (updates : ExpenseUpdates)
    (runUpdate : DbUpdatePayload → DbId → QueryResult (List DbExpenseRow))
    (budgets : List Budget) (runUpsert : List BudgetUpsertRow → QueryResult Unit) :
    fetchState none expQ budQ = defaultState
    ∧ saveExpense jsDateToISO none amount category description specificDate
        runInsert = Except.ok none
    ∧ updateExpense jsDateToISO none id updates runUpdate = (none, [])
    ∧ saveBudgets none budgets runUpsert = (Except.ok (), []) :=
  ⟨rfl, rfl, rfl, rfl⟩

/-- **C3 counterexample.** `saveBudgets` invoked without a session resolves
void (`Except.ok ()`) and sends nothing — even while the store would reject
every write — so this write does not return a failure signal as the claim
states. -/
theorem c3_counterexample_saveBudgets_unauthenticated :
    saveBudgets none [{ category := "Grocery", limit := 5000 }]
        (fun _ => QueryResult.err "store rejects all writes")
      = (Except.ok (), [])
    ∧ (saveBudgets none [{ category := "Grocery", limit := 5000 }]
        (fun _ => QueryResult.err "store rejects all writes")).1.isOk = true :=
  ⟨rfl, rfl⟩

/-- **C4.** For every update call, only the fields present in the partial
update appear in the payload sent to the store (absent fields stay absent,
present fields pass through unchanged), and a date that the host date parser
rejects is dropped from the payload alone: the rest of the update proceeds
exactly as if no date had been supplied, rather than the whole operation
failing. -/
theorem c4_updateExpense_partial_payload (jsDateToISO : String → Option String)
    (updates : ExpenseUpdates) :
    (buildDbUpdates jsDateToISO updates).amount = updates.amount
    ∧ (buildDbUpdates jsDateToISO updates).category = updates.category
    ∧ (buildDbUpdates jsDateToISO updates).description = updates.description
    ∧ (updates.date = none → (buildDbUpdates jsDateToISO updates).created_at = none)
    ∧ (∀ d, updates.date = some d → jsDateToISO d = none →
        (buildDbUpdates jsDateToISO updates).created_at = none)
    ∧ (∀ d, updates.date = some d → jsDateToISO d = none →
        ∀ (user : Option String) (id : String)
          (runUpdate : DbUpdatePayload → DbId → QueryResult (List DbExpenseRow)),
          updateExpense jsDateToISO user id updates runUpdate
            = updateExpense jsDateToISO user id
                { updates with date := none } runUpdate) := by
  refine ⟨rfl, rfl, rfl, ?_, ?_, ?_⟩
  · intro h
    simp [buildDbUpdates, h]
  · intro d hd hn
    by_cases hdd : d == "" <;> simp [buildDbUpdates, hd, hdd, hn]
  · intro d hd hn user id runUpdate
    have hpayload : buildDbUpdates jsDateToISO updates
        = buildDbUpdates jsDateToISO { updates with date := none } := by
      by_cases hdd : d == "" <;> simp [buildDbUpdates, hd, hdd, hn]
    cases user with
    | none => rfl
    | some u => simp [updateExpense, hpayload]

theorem c4_witness :
    ({ amount := some 5, category := none, description := some "snack",
       date := some "garbage" } : ExpenseUpdates).date = some "garbage"
    ∧ jsDateToISOdefault "garbage" = none
    ∧ (buildDbUpdates jsDateToISOdefault
        { amount := some 5, category := none, description := some "snack",
          date := some "garbage" }).created_at = none
    ∧ updateExpense jsDateToISOdefault (some "u1") "3"
        { amount := some 5, category := none, description := some "snack",
          date := some "garbage" }
        (fun _ _ => QueryResult.ok [])
      = updateExpense jsDateToISOdefault (some "u1") "3"
        { amount := some 5, category := none, description := some "snack",
          date := none }
        (fun _ _ => QueryResult.ok []) := by
  refine ⟨rfl, rfl, ?_, ?_⟩
  · exact (c4_updateExpense_partial_payload jsDateToISOdefault
      { amount := some 5, category := none, description := some "snack",
        date := some "garbage" }).2.2.2.2.1 "garbage" rfl rfl
  · exact (c4_updateExpense_partial_payload jsDateToISOdefault
      { amount := some 5, category := none, description := some "snack",
        date := some "garbage" }).2.2.2.2.2 "garbage" rfl rfl
      (some "u1") "3" (fun _ _ => QueryResult.ok [])

/-- **C5 (amended).** `updateExpense` always attempts the match first with the
most specific representation of the identifier (`DbId.num` exactly when the
id is the canonical decimal string of its parsed value, else `DbId.str`).
When that first attempt used the numeric representation and affects zero
rows, exactly one retry is made with the string id, and only if the retry
also affects no rows is the failure signal returned.  When the first attempt
used the string representation and affects zero rows, the failure signal is
returned at once — no retry with any alternate representation is made. -/
theorem c5_two_attempt_strategy (jsDateToISO : String → Option String)
    (user : String) (id : String) (updates : ExpenseUpdates)
    (runUpdate : DbUpdatePayload → DbId → QueryResult (List DbExpenseRow)) :
    ((updateExpense jsDateToISO (some user) id updates runUpdate).2.head?
        = some (filterIdOf id))
    ∧ (∀ n : Int, filterIdOf id = DbId.num n →
        runUpdate (buildDbUpdates jsDateToISO updates) (filterIdOf id)
            = QueryResult.ok [] →
        ((updateExpense jsDateToISO (some user) id updates runUpdate).2
            = [filterIdOf id, DbId.str id]
          ∧ (runUpdate (buildDbUpdates jsDateToISO updates) (DbId.str id)
                = QueryResult.ok [] →
              (updateExpense jsDateToISO (some user) id updates runUpdate).1
                = none)))
    ∧ (∀ s : String, filterIdOf id = DbId.str s →
        runUpdate (buildDbUpdates jsDateToISO updates) (filterIdOf id)
            = QueryResult.ok [] →
        updateExpense jsDateToISO (some user) id updates runUpdate
          = (none, [filterIdOf id])) := by
  refine ⟨?_, ?_, ?_⟩
  · cases h1 : runUpdate (buildDbUpdates jsDateToISO updates) (filterIdOf id) with
    | err m => simp [updateExpense, h1]
    | ok data =>
      cases data with
      | cons row rest => simp [updateExpense, h1]
      | nil =>
        cases h2 : filterIdOf id with
        | str s =>
          rw [h2] at h1
          simp [updateExpense, h1, h2]
        | num n =>
          rw [h2] at h1
          cases h3 : runUpdate (buildDbUpdates jsDateToISO updates)
              (DbId.str id) with
          | err m => simp [updateExpense, h1, h2, h3]
          | ok d2 => cases d2 <;> simp [updateExpense, h1, h2, h3]
  · intro n hnum hzero
    rw [hnum] at hzero
    constructor
    · cases h3 : runUpdate (buildDbUpdates jsDateToISO updates)
          (DbId.str id) with
      | err m => simp [updateExpense, hzero, hnum, h3]
      | ok d2 => cases d2 <;> simp [updateExpense, hzero, hnum, h3]
    · intro hretry
      simp [updateExpense, hzero, hnum, hretry]
  · intro s hstr hzero
    rw [hstr] at hzero
    simp [updateExpense, hzero, hstr]

/-- **C5 counterexample.** For `id = "007"` — not the canonical decimal
string of its parsed value `7` — the first attempt uses the string
representation; when it affects zero rows the function returns the failure
signal after that single attempt, with no retry under the alternate numeric
representation, so the claimed unconditional retry-on-zero-rows does not
happen. -/
theorem c5_counterexample_no_retry_for_string_id :
    updateExpense jsDateToISOdefault (some "u1") "007"
        { amount := some 1, category := none, description := none, date := none }
        (fun _ _ => QueryResult.ok [])
      = (none, [DbId.str "007"])
    ∧ (updateExpense jsDateToISOdefault (some "u1") "007"
        { amount := some 1, category := none, description := none, date := none }
        (fun _ _ => QueryResult.ok [])).2.length ≠ 2 :=
  ⟨rfl, by decide⟩

/-- Store oracle for the C5 witness: zero rows for any numeric key, a row for
the string key, so the numeric-first call retries once and succeeds. -/
def c5RetryOracle : DbUpdatePayload → DbId → QueryResult (List DbExpenseRow) :=
  fun _ fid =>
    match fid with
    | DbId.num _ => QueryResult.ok []
    | DbId.str _ => QueryResult.ok
        [{ id := DbId.str "42", amount := 5, category := "Grocery",
           description := "veg", created_at := "2024-01-01" }]

theorem c5_witness :
    filterIdOf "42" = DbId.num 42
    ∧ c5RetryOracle (buildDbUpdates jsDateToISOdefault
        { amount := some 1, category := none, description := none, date := none })
        (filterIdOf "42") = QueryResult.ok []
    ∧ (updateExpense jsDateToISOdefault (some "u1") "42"
        { amount := some 1, category := none, description := none, date := none }
        c5RetryOracle).2 = [filterIdOf "42", DbId.str "42"] := by
  refine ⟨rfl, rfl, ?_⟩
  exact ((c5_two_attempt_strategy jsDateToISOdefault "u1" "42"
    { amount := some 1, category := none, description := none, date := none }
    c5RetryOracle).2.1 42 rfl rfl).1

/-- **C6 (code-bug exhibit).** With an authenticated session and an explicit
date string the host date parser rejects, `saveExpense` reaches
`new Date(specificDate).toISOString()` unguarded and throws a `RangeError`
out of the reconciliation layer instead of returning the saved record or the
`null` failure signal — contradicting the boundary contract that no operation
may throw uncaught. -/
theorem c6_saveExpense_invalid_date_throws :
    saveExpense jsDateToISOdefault (some "user-1") 100 "Grocery" "lunch"
        (some "not-a-date") (fun _ => QueryResult.ok [])
      = Except.error "RangeError: Invalid time value" := rfl

/-- Models the host's `parseFloat` on plain decimal literals: skip leading
whitespace, an optional sign, then digits with an optional fractional part;
`none` stands for `NaN` (no digits at all).  Exact rational arithmetic stands
in for binary floating point. -/
def parseFloatJS (s : String) : Option ℚ :=
  let cs := s.data.dropWhile (fun c => c.isWhitespace)
  let signRest : ℚ × List Char :=
    match cs with
    | '-' :: rest => (-1, rest)
    | '+' :: rest => (1, rest)
    | rest => (1, rest)
  let intDigits := signRest.2.takeWhile (fun c => c.isDigit)
  let afterInt := signRest.2.drop intDigits.length
  let fracDigits :=
    match afterInt with
    | '.' :: r => r.takeWhile (fun c => c.isDigit)
    | _ => []
  if intDigits.isEmpty && fracDigits.isEmpty then none
  else some (signRest.1 * ((digitsToNat intDigits : ℚ)
      + (digitsToNat fracDigits : ℚ) / ((10 : ℚ) ^ fracDigits.length)))

/-- `Settings.handleInputChange` (`src/unnamed/part_000` lines 28-36): the
limit written through `onUpdateBudget`, as a function of the raw input string
— the parsed integer when `parseInt` succeeds, `0` for the empty string, and
no write at all (`none`) otherwise. -/
def handleInputChangeValue (value : String) : Option Int :=
  match parseIntJS value with
  | some n => some n
  | none => if value == "" then some 0 else none

/-- The amount written by the Dashboard edit-modal amount `onChange`
(`Dashboard.tsx` line 152): `parseFloat(e.target.value) || 0` — the parsed
value, with `NaN` (and `0` itself) collapsing to `0`. -/
def editAmountValue (value : String) : ℚ :=
  match parseFloatJS value with
  | none => 0
  | some q => if q = 0 then 0 else q

/-- **C8 counterexample.** The write handlers do not enforce non-negativity:
typing `-5` into a settings budget input writes limit `-5`, and typing `-3`
into the edit-modal amount input writes amount `-3` — negative values enter
the session lists, so non-negativity is not an invariant preserved by these
operations. -/
theorem parseFloatJS_neg_three : parseFloatJS "-3" = some (-3) := by
  have h : parseFloatJS "-3"
      = some ((-1 : ℚ) * ((digitsToNat ['3'] : ℚ)
          + (digitsToNat [] : ℚ)
              / ((10 : ℚ) ^ (List.length ([] : List Char))))) := rfl
  have d1 : digitsToNat ['3'] = 3 := by decide
  have d2 : digitsToNat [] = 0 := by decide
  rw [h, d1, d2]
  norm_num

theorem parseFloatJS_seven : parseFloatJS "7" = some 7 := by
  have h : parseFloatJS "7"
      = some ((1 : ℚ) * ((digitsToNat ['7'] : ℚ)
          + (digitsToNat [] : ℚ)
              / ((10 : ℚ) ^ (List.length ([] : List Char))))) := rfl
  have d1 : digitsToNat ['7'] = 7 := by decide
  have d2 : digitsToNat [] = 0 := by decide
  rw [h, d1, d2]
  norm_num

theorem c8_counterexample_negative_inputs :
    handleInputChangeValue "-5" = some (-5)
    ∧ (-5 : Int) < 0
    ∧ editAmountValue "-3" = -3
    ∧ (-3 : ℚ) < 0 := by
  refine ⟨rfl, by decide, ?_, by norm_num⟩
  norm_num [editAmountValue, parseFloatJS_neg_three]

/-- **C8 (amended).** The two write handlers coerce only emptiness and
unparseability, never sign: the settings handler writes exactly the
`parseInt` value when one exists (negative included), writes `0` for the
empty string and writes nothing otherwise; the edit-form handler writes
exactly the `parseFloat` value when one exists (negative included, `0` for a
parsed `0`) and `0` when parsing fails.  Hence non-negativity of session
amounts and limits holds only when the typed inputs are themselves
non-negative; it is not enforced by these handlers. -/
theorem c8_handlers_no_sign_clamp (s : String) :
    (∀ n : Int, parseIntJS s = some n → handleInputChangeValue s = some n)
    ∧ (parseIntJS s = none → s = "" → handleInputChangeValue s = some 0)
    ∧ (parseIntJS s = none → s ≠ "" → handleInputChangeValue s = none)
    ∧ (∀ q : ℚ, parseFloatJS s = some q → editAmountValue s = q)
    ∧ (parseFloatJS s = none → editAmountValue s = 0) := by
  refine ⟨?_, ?_, ?_, ?_, ?_⟩
  · intro n h
    simp [handleInputChangeValue, h]
  · intro h hs
    subst hs
    simp [handleInputChangeValue, h]
  · intro h hs
    simp [handleInputChangeValue, h, hs]
  · intro q h
    by_cases hq : q = 0 <;> simp [editAmountValue, h, hq]
  · intro h
    simp [editAmountValue, h]

theorem c8_witness :
    parseIntJS "12" = some 12
    ∧ handleInputChangeValue "12" = some 12
    ∧ parseFloatJS "7" = some 7
    ∧ editAmountValue "7" = 7 := by
  refine ⟨rfl, ?_, parseFloatJS_seven, ?_⟩
  · exact (c8_handlers_no_sign_clamp "12").1 12 rfl
  · exact (c8_handlers_no_sign_clamp "7").2.2.2.1 7 parseFloatJS_seven

/-- The regex replace of `handleExportCSV`: every `"` becomes `""`
(`replace(/"/g, '""')`). -/
def escapeQuotesChars : List Char → List Char
  | [] => []
  | c :: cs =>
    if c = '"' then '"' :: '"' :: escapeQuotesChars cs
    else c :: escapeQuotesChars cs

/-- The quoting applied to the user and description fields of a CSV row:
wrap in double quotes with internal quotes doubled. -/
def csvQuote (s : String) : String :=
  "\"" ++ String.mk (escapeQuotesChars s.data) ++ "\""

/-- Models `Array.prototype.join(sep)`. -/
def joinWith (sep : String) : List String → String
  | [] => ""
  | [x] => x
  | x :: xs => x ++ sep ++ joinWith sep xs

/-- The header cells of `Settings.handleExportCSV`
(`src/unnamed/part_000` line 59). -/
def csvHeaders : List String :=
  ["User", "Date", "Category", "Amount (INR)", "Description"]

/-- One data row of the export (`src/unnamed/part_000` lines 60-66): quoted
user name, host-locale date rendering, raw category, stringified amount,
quoted description.  `fmtDate` models `new Date(d).toLocaleDateString()` and
`showAmount` the host's number-to-string conversion. -/
def csvRow (fmtDate : String → String) (showAmount : ℚ → String)
    (userName : String) (e : Expense) : List String :=
  [csvQuote userName, fmtDate e.date, e.category, showAmount e.amount,
   csvQuote e.description]

/-- The CSV text built by `Settings.handleExportCSV`
(`src/unnamed/part_000` lines 53-68): `none` when there are no expenses (the
source alerts and returns without exporting), else header and rows joined
with commas, lines joined with newlines. -/
def handleExportCSV (fmtDate : String → String) (showAmount : ℚ → String)
    (userName : String) (expenses : List Expense) : Option String :=
  if expenses.length == 0 then none
  else some (joinWith "\n"
    ((csvHeaders :: expenses.map (csvRow fmtDate showAmount userName)).map
      (fun r => joinWith "," r)))

/-- Models `new Date(s).toLocaleDateString()` for the `en-US` host locale on
ISO calendar-date inputs (no timezone shift): `"YYYY-MM-DD"` renders as
`"M/D/YYYY"` without leading zeros. -/
def fmtDateEnUS (s : String) : String :=
  match splitOnChar '-' s.data with
  | [y, m, d] =>
    toString (digitsToNat m) ++ "/" ++ toString (digitsToNat d) ++ "/"
      ++ String.mk y
  | _ => "Invalid Date"

/-- Models the host's number-to-string conversion on integral amounts (the
only values the concrete statements below use): an integral rational prints
as its integer numerator. -/
def showAmountInt (q : ℚ) : String := toString q.num

/-- The scenario expense of the C9 claim. -/
def c9Expense : Expense :=
  { id := "1", amount := 250, category := "Food & Drinks",
    description := "Lunch \"special\"", date := "2024-01-05" }

theorem escapeQuotesChars_of_no_quote (cs : List Char)
    (h : ∀ c ∈ cs, c ≠ '"') : escapeQuotesChars cs = cs := by
  induction cs with
  | nil => rfl
  | cons c cs ih =>
    have hc : ¬ (c = '"') := h c (List.mem_cons_self c cs)
    rw [escapeQuotesChars, if_neg hc, ih (fun x hx => h x (List.mem_cons_of_mem c hx))]

/-- **C9.** For every non-empty expense list and user name, the export is a
table whose first row is the comma-joined header
`User,Date,Category,Amount (INR),Description` and whose subsequent rows
serialize each expense as quoted user, locale-formatted date, category,
amount, quoted description — the quoting wraps the field in double quotes
with internal quotes doubled (fields without quote characters are merely
wrapped).  In particular, exporting the scenario expense
`{date: 2024-01-05, category: "Food & Drinks", amount: 250,
description: 'Lunch "special"'}` for user `Asha` yields exactly the row
`"Asha",1/5/2024,Food & Drinks,250,"Lunch ""special"""` under the header. -/
theorem c9_export_csv (fmtDate : String → String) (showAmount : ℚ → String)
    (userName : String) (expenses : List Expense) (h : expenses ≠ []) :
    joinWith "," csvHeaders = "User,Date,Category,Amount (INR),Description"
    ∧ handleExportCSV fmtDate showAmount userName expenses
        = some (joinWith "\n" (joinWith "," csvHeaders
            :: expenses.map (fun e =>
                joinWith "," (csvRow fmtDate showAmount userName e))))
    ∧ (∀ e : Expense, csvRow fmtDate showAmount userName e
        = [csvQuote userName, fmtDate e.date, e.category,
           showAmount e.amount, csvQuote e.description])
    ∧ (∀ t : String, (∀ c ∈ t.data, c ≠ '"') →
        csvQuote t = "\"" ++ t ++ "\"")
    ∧ handleExportCSV fmtDateEnUS showAmountInt "Asha" [c9Expense]
        = some ("User,Date,Category,Amount (INR),Description\n\"Asha\",1/5/2024,Food & Drinks,250,\"Lunch \"\"special\"\"\"") := by
  refine ⟨rfl, ?_, fun e => rfl, ?_, ?_⟩
  · have hlen : (expenses.length == 0) = false := by
      cases expenses with
      | nil => exact absurd rfl h
      | cons a as => rfl
    simp only [handleExportCSV, hlen, Bool.false_eq_true, if_false,
      List.map_cons, List.map_map]
    rfl
  · intro t ht
    unfold csvQuote
    rw [escapeQuotesChars_of_no_quote t.data ht]
  · rfl

theorem c9_witness :
    ([c9Expense] ≠ ([] : List Expense))
    ∧ handleExportCSV fmtDateEnUS showAmountInt "Asha" [c9Expense]
        = some ("User,Date,Category,Amount (INR),Description\n\"Asha\",1/5/2024,Food & Drinks,250,\"Lunch \"\"special\"\"\"") :=
  ⟨List.cons_ne_nil c9Expense [],
   (c9_export_csv fmtDateEnUS showAmountInt "Asha" [c9Expense]
      (List.cons_ne_nil c9Expense [])).2.2.2.2⟩

/-- The structured expense candidate the extractor returns
(`{amount, category, description, date}` per the response schema of
`src/unnamed/part_002`). -/
structure ParsedExpense where
  amount : ℚ
  category : String
  description : String
  date : String
  deriving DecidableEq, Repr

/-- The `try` block of `parseExpenseMessage` (`src/unnamed/part_002` lines
8-41) as an exception-producing computation: constructing the client without
an API key throws; a model-call error rejects; `JSON.parse` on the trimmed
response text throws when it is unparseable (`parseJSON` returning `none`);
otherwise the parsed object is returned.  `apiResult` is the model call's
outcome; `parseJSON` models the host's `JSON.parse` against the response
schema. -/
def parseExpenseBody (hasApiKey : Bool) (apiResult : Except String String)
    (parseJSON : String → Option ParsedExpense) : Except String ParsedExpense :=
  if hasApiKey = false then Except.error "An API key is required"
  else
    match apiResult with
    | Except.error e => Except.error e
    | Except.ok text =>
      match parseJSON text.trim with
      | some v => Except.ok v
      | none => Except.error "SyntaxError: unparseable response"

/-- `parseExpenseMessage` (`src/unnamed/part_002` lines 7-46): the whole body
runs inside `try ... catch { return null }`, so every thrown failure becomes
`null` (`none`). -/
def parseExpenseMessage (hasApiKey : Bool) (apiResult : Except String String)
    (parseJSON : String → Option ParsedExpense) : Option ParsedExpense :=
  match parseExpenseBody hasApiKey apiResult parseJSON with
  | Except.ok v => some v
  | Except.error _ => none

/-- **C10.** For every input, `parseExpenseMessage` returns either a parsed
structured-expense object or `null`, never letting an exception escape: the
missing-API-key failure, a model-call error and an unparseable response text
each yield `none`, and only a successfully parsed response yields `some`. -/
theorem c10_parseExpenseMessage_total (hasApiKey : Bool)
    (apiResult : Except String String)
    (parseJSON : String → Option ParsedExpense) :
    (parseExpenseMessage hasApiKey apiResult parseJSON = none
      ∨ ∃ v, parseExpenseMessage hasApiKey apiResult parseJSON = some v)
    ∧ (hasApiKey = false →
        parseExpenseMessage hasApiKey apiResult parseJSON = none)
    ∧ (∀ e, apiResult = Except.error e →
        parseExpenseMessage hasApiKey apiResult parseJSON = none)
    ∧ (∀ t, hasApiKey = true → apiResult = Except.ok t → parseJSON t.trim = none →
        parseExpenseMessage hasApiKey apiResult parseJSON = none)
    ∧ (∀ t v, hasApiKey = true → apiResult = Except.ok t →
        parseJSON t.trim = some v →
        parseExpenseMessage hasApiKey apiResult parseJSON = some v) := by
  refine ⟨?_, ?_, ?_, ?_, ?_⟩
  · cases hb : parseExpenseBody hasApiKey apiResult parseJSON with
    | ok v => exact Or.inr ⟨v, by simp [parseExpenseMessage, hb]⟩
    | error e => exact Or.inl (by simp [parseExpenseMessage, hb])
  · intro hk
    simp [parseExpenseMessage, parseExpenseBody, hk]
  · intro e he
    cases hasApiKey <;> simp [parseExpenseMessage, parseExpenseBody, he]
  · intro t hk ha hp
    simp [parseExpenseMessage, parseExpenseBody, hk, ha, hp]
  · intro t v hk ha hp
    simp [parseExpenseMessage, parseExpenseBody, hk, ha, hp]

/-- Concrete extractor response for the C10 witness. -/
def c10Parsed : ParsedExpense :=
  { amount := 250, category := "Food & Drinks",
    description := "Lunch", date := "2024-01-05" }

theorem c10_witness :
    (Except.ok "raw model text" : Except String String) = Except.ok "raw model text"
    ∧ parseExpenseMessage true (Except.ok "raw model text")
        (fun _ => some c10Parsed) = some c10Parsed
    ∧ parseExpenseMessage false (Except.ok "raw model text")
        (fun _ => some c10Parsed) = none :=
  ⟨rfl,
   (c10_parseExpenseMessage_total true (Except.ok "raw model text")
      (fun _ => some c10Parsed)).2.2.2.2 "raw model text" c10Parsed rfl rfl rfl,
   (c10_parseExpenseMessage_total false (Except.ok "raw model text")
      (fun _ => some c10Parsed)).2.1 rfl⟩
